import Mathlib

/-!
Shallow embedding of the core of the LedFx → iCUE bridge
(`ledfx_icue_core.py`) and proofs about its specification claims.

Bytes are modelled as natural numbers, byte buffers as `List ℕ`,
wall-clock instants and float quantities as rationals (reals for the
brightness/gamma lookup table, whose formula uses a real power).
Fallible Python operations (indexing that can raise `IndexError` /
`KeyError`) are modelled in the `Option` monad; `none` models an
uncaught exception.
-/

/-- Python read `l[i]` for a non-negative index: fails (raises) when out of range. -/
def pyGet {α : Type} (l : List α) (i : ℕ) : Option α := l.get? i

/-- Python element assignment `l[i] = v` for a non-negative index: fails when out of range. -/
def pySet {α : Type} (l : List α) (i : ℕ) (v : α) : Option (List α) :=
  if i < l.length then some (l.set i v) else none

/-- Python slice `l[lo:hi]` for non-negative bounds: clips, never raises. -/
def pySlice {α : Type} (l : List α) (lo hi : ℕ) : List α :=
  (l.drop lo).take (hi - lo)

/-- Python slice assignment `l[lo:hi] = xs` on a list/bytearray with non-negative
bounds: the (clipped) region is replaced by `xs`, so the length changes when
`xs` does not have the region's size. Never raises. -/
def pySliceAssign {α : Type} (l : List α) (lo hi : ℕ) (xs : List α) : List α :=
  let lo' := min lo l.length
  let hi' := min (max hi lo') l.length
  l.take lo' ++ xs ++ l.drop hi'

/-- Python `int.from_bytes(bs, "big")`. -/
def intFromBytesBE (bs : List ℕ) : ℕ := bs.foldl (fun acc b => acc * 256 + b) 0

/-- DDP classifier `looks_like_ddp` (ledfx_icue_core.py:1718-1736).  The read of
`data[0]` is modelled with `headD` because it is guarded by the `len(data) < 10`
check. -/
def looks_like_ddp (data : List ℕ) : Bool :=
  if data.length < 10 then false
  else
    let version := (data.headD 0 &&& 0xC0) >>> 6
    if version = 0 then false
    else
      let header_len := if data.headD 0 &&& 0x10 ≠ 0 then 14 else 10
      if data.length < header_len then false
      else
        let length := intFromBytesBE (pySlice data 8 10)
        if length = 0 then true
        else
          let payload_len := data.length - header_len
          if length ≤ payload_len then true
          else if length * 3 = payload_len then true
          else false

/-- Guarded payload copy of `parse_ddp` (ledfx_icue_core.py:1749-1751):
copy `payload` into the buffer at `offset`, clipped to the buffer bounds;
out-of-buffer offsets are skipped entirely. -/
def ddpWrite (frame_buffer payload : List ℕ) (offset : ℕ) : List ℕ :=
  if offset < frame_buffer.length then
    let e := min frame_buffer.length (offset + payload.length)
    pySliceAssign frame_buffer offset e (payload.take (e - offset))
  else frame_buffer

/-- DDP decoder `parse_ddp` (ledfx_icue_core.py:1739-1752).  Returns the `push`
flag and the updated frame buffer; `none` models the `IndexError` raised by
`data[0]` on an empty datagram. -/
def parse_ddp (data : List ℕ) (frame_buffer : List ℕ) : Option (Bool × List ℕ) := do
  let b0 ← pyGet data 0
  let header_len := if b0 &&& 0x10 ≠ 0 then 14 else 10
  let offset := intFromBytesBE (pySlice data 4 8)
  let length0 := intFromBytesBE (pySlice data 8 10)
  let payload0 := data.drop header_len
  let length := if length0 ≠ 0 ∧ length0 * 3 = payload0.length then payload0.length else length0
  let payload := if length ≠ 0 ∧ length < payload0.length then payload0.take length else payload0
  let push := b0 &&& 0x01 ≠ 0
  return (push, ddpWrite frame_buffer payload offset)

/-- Helper `_clear_tail` (ledfx_icue_core.py:1755-1757): zero-fill the buffer
from `start` on. -/
def clear_tail (frame_buffer : List ℕ) (start : ℕ) : List ℕ :=
  if start < frame_buffer.length then
    pySliceAssign frame_buffer start frame_buffer.length
      (List.replicate (frame_buffer.length - start) 0)
  else frame_buffer

/-- Dense copy with zero-filled remainder, the triplicated body of the code 2
and raw branches of `parse_wled_or_raw`:
`frame_buffer[:copy_len] = payload[:copy_len]` followed by `_clear_tail` when
the payload is shorter than the buffer. -/
def denseFill (payload : List ℕ) (frame_buffer : List ℕ) : List ℕ :=
  let copy_len := min frame_buffer.length payload.length
  let fb := pySliceAssign frame_buffer 0 copy_len (payload.take copy_len)
  if payload.length < frame_buffer.length then clear_tail fb copy_len else fb

/-- Sub-protocol 1 loop of `parse_wled_or_raw` (ledfx_icue_core.py:1776-1785):
`[index, r, g, b]` quads; an out-of-range target is skipped (`continue`),
fewer than four remaining bytes end the loop (`break`). -/
def wledProto1Loop : List ℕ → List ℕ → Option (List ℕ)
  | frame, idx :: r :: g :: b :: rest =>
    let offset := idx * 3
    if frame.length ≤ offset + 2 then wledProto1Loop frame rest
    else do
      let f1 ← pySet frame offset r
      let f2 ← pySet f1 (offset + 1) g
      let f3 ← pySet f2 (offset + 2) b
      wledProto1Loop f3 rest
  | frame, _ => some frame

/-- Sub-protocol 3 loop of `parse_wled_or_raw` (ledfx_icue_core.py:1796-1803):
four input bytes per pixel, three written per pixel.  The Python loop steps the
read index by 4 and breaks when fewer than three payload bytes or three buffer
slots remain; the two match arms unroll the "at least four left" and "exactly
three left" iterations. -/
def wledProto3Loop : List ℕ → ℕ → List ℕ → Option (List ℕ)
  | frame, out, a :: b :: c :: _d :: rest =>
    if frame.length ≤ out + 2 then some frame
    else do
      let f1 ← pySet frame out a
      let f2 ← pySet f1 (out + 1) b
      let f3 ← pySet f2 (out + 2) c
      wledProto3Loop f3 (out + 3) rest
  | frame, out, [a, b, c] =>
    if frame.length ≤ out + 2 then some frame
    else do
      let f1 ← pySet frame out a
      let f2 ← pySet f1 (out + 1) b
      let f3 ← pySet f2 (out + 2) c
      return f3
  | frame, _, _ => some frame

/-- Sub-protocol 4 loop of `parse_wled_or_raw` (ledfx_icue_core.py:1810-1817):
dense RGB starting at pixel `idx`; breaks when fewer than three payload bytes
remain or the target triplet does not fit the buffer. -/
def wledProto4Loop : List ℕ → ℕ → List ℕ → Option (List ℕ)
  | frame, idx, a :: b :: c :: rest =>
    let offset := idx * 3
    if frame.length ≤ offset + 2 then some frame
    else do
      let f1 ← pySet frame offset a
      let f2 ← pySet f1 (offset + 1) b
      let f3 ← pySet f2 (offset + 2) c
      wledProto4Loop f3 (idx + 1) rest
  | frame, _, _ => some frame

/-- Notification-family / raw decoder `parse_wled_or_raw`
(ledfx_icue_core.py:1760-1824). -/
def parse_wled_or_raw (data : List ℕ) (frame_buffer : List ℕ) : Option (List ℕ) :=
  if data = [] then some frame_buffer
  else do
    let proto ← pyGet data 0
    if (proto = 1 ∨ proto = 2 ∨ proto = 3 ∨ proto = 4) ∧ 2 ≤ data.length then
      if proto = 2 ∧ (data.length - 1) % 3 = 0 then
        return denseFill (data.drop 1) frame_buffer
      else if proto = 1 then
        wledProto1Loop frame_buffer (data.drop 2)
      else if proto = 2 then
        return denseFill (data.drop 2) frame_buffer
      else if proto = 3 then
        wledProto3Loop frame_buffer 0 (data.drop 2)
      else
        if data.length < 4 then return frame_buffer
        else do
          let hi ← pyGet data 2
          let lo ← pyGet data 3
          wledProto4Loop frame_buffer ((hi <<< 8) ||| lo) (data.drop 4)
    else
      if data.length % 3 = 0 then return denseFill data frame_buffer
      else return frame_buffer

/-- C1 counterexample input: a 10-byte datagram, version bits `01`
(no timecode flag, so the header length is 10), declared length 5 with an
empty remaining payload. -/
def c1Data : List ℕ := [0x40, 0, 0, 0, 0, 0, 0, 0, 0, 5]

/-- C1: the claim as stated is false: `c1Data` is a datagram of exactly the
header length (10 bytes) whose version bits are `01` (not `00`), yet the
classifier rejects it, because its declared length 5 exceeds the remaining
payload size 0 and is not a third of it and not zero. -/
theorem looks_like_ddp_not_opportunistic :
    c1Data.length = 10 ∧
    (c1Data.headD 0 &&& 0xC0) >>> 6 ≠ 0 ∧
    (if c1Data.headD 0 &&& 0x10 ≠ 0 then 14 else 10) ≤ c1Data.length ∧
    looks_like_ddp c1Data = false := by decide

/-- C1 (amended): `looks_like_ddp` recognizes a datagram as DDP iff it is at
least 10 bytes long, its version bits (top two bits of byte 0) are not `00`,
it is at least as long as the header (10 bytes, or 14 with the timecode flag
bit `0x10`), and the declared big-endian length at bytes 8-10 is zero, at most
the remaining payload size, or exactly one third of it.  The push bit plays no
part in the classification. -/
theorem looks_like_ddp_iff (data : List ℕ) :
    looks_like_ddp data = true ↔
      10 ≤ data.length ∧
      (data.headD 0 &&& 0xC0) >>> 6 ≠ 0 ∧
      (if data.headD 0 &&& 0x10 ≠ 0 then 14 else 10) ≤ data.length ∧
      (intFromBytesBE (pySlice data 8 10) = 0 ∨
       intFromBytesBE (pySlice data 8 10) ≤
         data.length - (if data.headD 0 &&& 0x10 ≠ 0 then 14 else 10) ∨
       intFromBytesBE (pySlice data 8 10) * 3 =
         data.length - (if data.headD 0 &&& 0x10 ≠ 0 then 14 else 10)) := by
  unfold looks_like_ddp
  split_ifs <;> simp_all

lemma pySet_pos {α : Type} {l : List α} {i : ℕ} (v : α) (h : i < l.length) :
    pySet l i v = some (l.set i v) := by
  simp [pySet, h]

lemma pySliceAssign_length_of_fit {α : Type} {l xs : List α} {lo hi : ℕ}
    (hlo : lo ≤ l.length) (hhi : hi ≤ l.length) (hle : lo ≤ hi)
    (hxs : xs.length = hi - lo) :
    (pySliceAssign l lo hi xs).length = l.length := by
  simp [pySliceAssign]
  omega

lemma clear_tail_length (fb : List ℕ) (start : ℕ) :
    (clear_tail fb start).length = fb.length := by
  unfold clear_tail
  split_ifs with h
  · exact pySliceAssign_length_of_fit (by omega) le_rfl (by omega) (by simp)
  · rfl

lemma denseFill_length (p fb : List ℕ) : (denseFill p fb).length = fb.length := by
  have h1 : (pySliceAssign fb 0 (min fb.length p.length)
      (p.take (min fb.length p.length))).length = fb.length :=
    pySliceAssign_length_of_fit (by omega) (by omega) (by omega) (by simp)
  unfold denseFill
  split_ifs with h
  · rw [clear_tail_length, h1]
  · exact h1

lemma ddpWrite_length (fb payload : List ℕ) (offset : ℕ) :
    (ddpWrite fb payload offset).length = fb.length := by
  unfold ddpWrite
  split_ifs with h
  · exact pySliceAssign_length_of_fit (by omega) (by omega) (by omega) (by simp; omega)
  · rfl

lemma parse_ddp_isSome (data fb : List ℕ) (h : data ≠ []) : (parse_ddp data fb).isSome := by
  match data with
  | d :: rest => simp [parse_ddp, pyGet]

lemma parse_ddp_length (data fb : List ℕ) (p : Bool) (fb2 : List ℕ)
    (h : parse_ddp data fb = some (p, fb2)) : fb2.length = fb.length := by
  match data with
  | [] => simp [parse_ddp, pyGet] at h
  | d :: rest =>
    simp [parse_ddp, pyGet] at h
    obtain ⟨-, hfb⟩ := h
    rw [← hfb, ddpWrite_length]

lemma wledProto1Loop_spec :
    ∀ (payload frame : List ℕ),
      ∃ res, wledProto1Loop frame payload = some res ∧ res.length = frame.length := by
  suffices H : ∀ (n : ℕ) (payload frame : List ℕ), payload.length ≤ n →
      ∃ res, wledProto1Loop frame payload = some res ∧ res.length = frame.length by
    intro payload frame
    exact H payload.length payload frame le_rfl
  intro n
  induction n with
  | zero =>
    intro payload frame h
    match payload with
    | [] => exact ⟨frame, by simp [wledProto1Loop], rfl⟩
  | succ n ih =>
    intro payload frame h
    match payload with
    | [] => exact ⟨frame, by simp [wledProto1Loop], rfl⟩
    | [a] => exact ⟨frame, by simp [wledProto1Loop], rfl⟩
    | [a, b] => exact ⟨frame, by simp [wledProto1Loop], rfl⟩
    | [a, b, c] => exact ⟨frame, by simp [wledProto1Loop], rfl⟩
    | idx :: r :: g :: b :: rest =>
      simp only [List.length_cons] at h
      by_cases hlen : frame.length ≤ idx * 3 + 2
      · obtain ⟨res, hres, hl⟩ := ih rest frame (by omega)
        exact ⟨res, by simp [wledProto1Loop, hlen, hres], hl⟩
      · push_neg at hlen
        have hC : ¬ frame.length ≤ idx * 3 + 2 := by omega
        have h0 : idx * 3 < frame.length := by omega
        have h1 : idx * 3 + 1 < frame.length := by omega
        have h2 : idx * 3 + 2 < frame.length := by omega
        obtain ⟨res, hres, hl⟩ :=
          ih rest (((frame.set (idx * 3) r).set (idx * 3 + 1) g).set (idx * 3 + 2) b) (by omega)
        refine ⟨res, ?_, by simpa using hl⟩
        simp [wledProto1Loop, hC, pySet, h0, h1, h2, hres]

lemma wledProto3Loop_spec :
    ∀ (payload frame : List ℕ) (out : ℕ),
      ∃ res, wledProto3Loop frame out payload = some res ∧ res.length = frame.length := by
  suffices H : ∀ (n : ℕ) (payload frame : List ℕ) (out : ℕ), payload.length ≤ n →
      ∃ res, wledProto3Loop frame out payload = some res ∧ res.length = frame.length by
    intro payload frame out
    exact H payload.length payload frame out le_rfl
  intro n
  induction n with
  | zero =>
    intro payload frame out h
    match payload with
    | [] => exact ⟨frame, by simp [wledProto3Loop], rfl⟩
  | succ n ih =>
    intro payload frame out h
    match payload with
    | [] => exact ⟨frame, by simp [wledProto3Loop], rfl⟩
    | [a] => exact ⟨frame, by simp [wledProto3Loop], rfl⟩
    | [a, b] => exact ⟨frame, by simp [wledProto3Loop], rfl⟩
    | [a, b, c] =>
      by_cases hlen : frame.length ≤ out + 2
      · exact ⟨frame, by simp [wledProto3Loop, hlen], rfl⟩
      · push_neg at hlen
        have hC : ¬ frame.length ≤ out + 2 := by omega
        have h0 : out < frame.length := by omega
        have h1 : out + 1 < frame.length := by omega
        have h2 : out + 2 < frame.length := by omega
        refine ⟨((frame.set out a).set (out + 1) b).set (out + 2) c, ?_, by simp⟩
        simp [wledProto3Loop, hC, pySet, h0, h1, h2]
    | a :: b :: c :: d :: rest =>
      simp only [List.length_cons] at h
      by_cases hlen : frame.length ≤ out + 2
      · exact ⟨frame, by simp [wledProto3Loop, hlen], rfl⟩
      · push_neg at hlen
        have hC : ¬ frame.length ≤ out + 2 := by omega
        have h0 : out < frame.length := by omega
        have h1 : out + 1 < frame.length := by omega
        have h2 : out + 2 < frame.length := by omega
        obtain ⟨res, hres, hl⟩ :=
          ih rest (((frame.set out a).set (out + 1) b).set (out + 2) c) (out + 3) (by omega)
        refine ⟨res, ?_, by simpa using hl⟩
        simp [wledProto3Loop, hC, pySet, h0, h1, h2, hres]

lemma wledProto4Loop_spec :
    ∀ (payload frame : List ℕ) (idx : ℕ),
      ∃ res, wledProto4Loop frame idx payload = some res ∧ res.length = frame.length := by
  suffices H : ∀ (n : ℕ) (payload frame : List ℕ) (idx : ℕ), payload.length ≤ n →
      ∃ res, wledProto4Loop frame idx payload = some res ∧ res.length = frame.length by
    intro payload frame idx
    exact H payload.length payload frame idx le_rfl
  intro n
  induction n with
  | zero =>
    intro payload frame idx h
    match payload with
    | [] => exact ⟨frame, by simp [wledProto4Loop], rfl⟩
  | succ n ih =>
    intro payload frame idx h
    match payload with
    | [] => exact ⟨frame, by simp [wledProto4Loop], rfl⟩
    | [a] => exact ⟨frame, by simp [wledProto4Loop], rfl⟩
    | [a, b] => exact ⟨frame, by simp [wledProto4Loop], rfl⟩
    | a :: b :: c :: rest =>
      simp only [List.length_cons] at h
      by_cases hlen : frame.length ≤ idx * 3 + 2
      · exact ⟨frame, by simp [wledProto4Loop, hlen], rfl⟩
      · push_neg at hlen
        have hC : ¬ frame.length ≤ idx * 3 + 2 := by omega
        have h0 : idx * 3 < frame.length := by omega
        have h1 : idx * 3 + 1 < frame.length := by omega
        have h2 : idx * 3 + 2 < frame.length := by omega
        obtain ⟨res, hres, hl⟩ :=
          ih rest (((frame.set (idx * 3) a).set (idx * 3 + 1) b).set (idx * 3 + 2) c)
            (idx + 1) (by omega)
        refine ⟨res, ?_, by simpa using hl⟩
        simp [wledProto4Loop, hC, pySet, h0, h1, h2, hres]

lemma parse_wled_or_raw_spec (data fb : List ℕ) :
    ∃ res, parse_wled_or_raw data fb = some res ∧ res.length = fb.length := by
  by_cases hd : data = []
  · exact ⟨fb, by simp [parse_wled_or_raw, hd], rfl⟩
  · match data, hd with
    | d0 :: rest, _ =>
      simp only [parse_wled_or_raw, if_neg (by simp : ¬ (d0 :: rest : List ℕ) = []),
        pyGet, List.get?, Option.bind_eq_bind', Option.some_bind, Option.pure_def]
      split_ifs with h1 h2 h3 h4 h5 h6 h7
      · exact ⟨_, rfl, denseFill_length _ _⟩
      · exact wledProto1Loop_spec _ _
      · exact ⟨_, rfl, denseFill_length _ _⟩
      · exact wledProto3Loop_spec _ _ _
      · exact ⟨fb, rfl, rfl⟩
      · have h6' : 3 ≤ rest.length := by
          simp only [List.length_cons] at h6
          omega
        simp only [List.get?_eq_get (show 1 < rest.length by omega),
          List.get?_eq_get (show 2 < rest.length by omega),
          Option.bind_eq_bind', Option.some_bind]
        exact wledProto4Loop_spec _ _ _
      · exact ⟨_, rfl, denseFill_length _ _⟩
      · exact ⟨fb, rfl, rfl⟩

/-- C10: the decoders are total and buffer-safe: `parse_wled_or_raw` never
raises for any payload (including the empty one), `parse_ddp` never raises
for any payload of at least 10 bytes, and both leave the frame buffer's length
unchanged (every write lands inside the buffer or is skipped/clipped). -/
theorem decoders_total_and_length_preserving :
    (∀ data fb : List ℕ, (parse_wled_or_raw data fb).isSome) ∧
    (∀ data fb : List ℕ, 10 ≤ data.length → (parse_ddp data fb).isSome) ∧
    (∀ data fb res : List ℕ, parse_wled_or_raw data fb = some res → res.length = fb.length) ∧
    (∀ (data fb : List ℕ) (push : Bool) (res : List ℕ),
      parse_ddp data fb = some (push, res) → res.length = fb.length) := by
  refine ⟨?_, ?_, ?_, ?_⟩
  · intro data fb
    obtain ⟨res, h, -⟩ := parse_wled_or_raw_spec data fb
    simp [h]
  · intro data fb h
    refine parse_ddp_isSome data fb ?_
    intro he
    subst he
    simp at h
  · intro data fb res h
    obtain ⟨res2, h2, hl⟩ := parse_wled_or_raw_spec data fb
    rw [h, Option.some.injEq] at h2
    rw [h2]
    exact hl
  · exact fun data fb p res h => parse_ddp_length data fb p res h

/-- C10 witness: the totality and length-preservation statements applied at
concrete datagrams and a concrete 3-byte frame buffer. -/
theorem decoders_total_witness :
    (parse_wled_or_raw [2, 0, 9, 9, 9] [0, 0, 0]).isSome ∧
    (parse_ddp [0x41, 0, 0, 0, 0, 0, 0, 0, 0, 0] [7, 7, 7]).isSome ∧
    ([9, 9, 9] : List ℕ).length = ([0, 0, 0] : List ℕ).length :=
  ⟨decoders_total_and_length_preserving.1 [2, 0, 9, 9, 9] [0, 0, 0],
   decoders_total_and_length_preserving.2.1 [0x41, 0, 0, 0, 0, 0, 0, 0, 0, 0] [7, 7, 7]
     (by decide),
   decoders_total_and_length_preserving.2.2.1 [2, 0, 9, 9, 9] [0, 0, 0] [9, 9, 9] (by decide)⟩

/-- Python `int(x)` on a real value: truncation toward zero. -/
noncomputable def pyInt (x : ℝ) : ℤ := if 0 ≤ x then ⌊x⌋ else ⌈x⌉

/-- Brightness/gamma lookup-table entry `build_lut(brightness, gamma)[i]`
(ledfx_icue_core.py:140-152), with Python floats idealized as reals; the
`gamma != 1.0` test guards the power exactly as in the source. -/
noncomputable def build_lut (brightness gamma : ℝ) (i : ℕ) : ℤ :=
  let v0 : ℝ := (i : ℝ) / 255
  let v1 : ℝ := if gamma ≠ 1 then v0 ^ gamma else v0
  let v2 : ℝ := v1 * 255 * brightness
  let v3 : ℝ := if v2 < 0 then 0 else v2
  let v4 : ℝ := if 255 < v3 then 255 else v3
  pyInt (v4 + 1 / 2)

/-- The spec formula `round(clamp((i/255)^gamma * 255 * brightness, 0, 255))`,
with `clamp(x, lo, hi) = max lo (min hi x)` and Mathlib's `round` (round half
up, `round x = ⌊x + 1/2⌋`). -/
noncomputable def lutSpecFormula (brightness gamma : ℝ) (i : ℕ) : ℤ :=
  round (max 0 (min 255 (((i : ℝ) / 255) ^ gamma * 255 * brightness)))

lemma pyClampRound (x : ℝ) :
    pyInt ((if 255 < (if x < 0 then (0 : ℝ) else x) then (255 : ℝ)
            else if x < 0 then (0 : ℝ) else x) + 1 / 2) =
      round (max 0 (min 255 x)) := by
  have hcl : (if 255 < (if x < 0 then (0 : ℝ) else x) then (255 : ℝ)
      else if x < 0 then (0 : ℝ) else x) = max 0 (min 255 x) := by
    rcases lt_or_le x 0 with hx | hx
    · rw [if_pos hx, if_neg (by norm_num), max_eq_left]
      rw [min_eq_right (by linarith)]
      exact hx.le
    · rw [if_neg (not_lt.2 hx)]
      rcases lt_or_le 255 x with h2 | h2
      · rw [if_pos h2, min_eq_left h2.le]
        norm_num
      · rw [if_neg (not_lt.2 h2), min_eq_right h2, max_eq_right hx]
  have hnn : (0 : ℝ) ≤ max 0 (min 255 x) := le_max_left 0 _
  rw [hcl, round_eq, pyInt, if_pos (by linarith)]

/-- C2: every entry of the brightness/gamma LUT equals the spec formula
`round(clamp((i/255)^gamma * 255 * brightness, 0, 255))`; in particular
`build_lut 1 1` is the identity on `0..255` and `build_lut 2 1` saturates at
255 without overflow. -/
theorem build_lut_matches_spec :
    (∀ (brightness gamma : ℝ) (i : ℕ),
      build_lut brightness gamma i = lutSpecFormula brightness gamma i) ∧
    (∀ i : ℕ, i ≤ 255 → build_lut 1 1 i = i) ∧
    build_lut 2 1 255 = 255 := by
  have hmain : ∀ (brightness gamma : ℝ) (i : ℕ),
      build_lut brightness gamma i = lutSpecFormula brightness gamma i := by
    intro b g i
    by_cases hg : g = 1
    · subst hg
      simp only [build_lut, lutSpecFormula, ne_eq, not_true_eq_false, if_false,
        Real.rpow_one]
      exact pyClampRound _
    · simp only [build_lut, lutSpecFormula, ne_eq, hg, not_false_eq_true, if_true]
      exact pyClampRound _
  refine ⟨hmain, ?_, ?_⟩
  · intro i hi
    have hne : ¬ ((1 : ℝ) ≠ 1) := by simp
    have hx : ((i : ℝ) / 255) * 255 * 1 = (i : ℝ) := by
      rw [mul_one, div_mul_cancel₀ _ (by norm_num : (255 : ℝ) ≠ 0)]
    simp only [build_lut, if_neg hne, hx]
    rw [if_neg (not_lt.2 (by positivity : (0 : ℝ) ≤ (i : ℝ)))]
    rw [if_neg (not_lt.2 (by exact_mod_cast hi : (i : ℝ) ≤ 255))]
    rw [pyInt, if_pos (by positivity)]
    rw [Int.floor_eq_iff]
    constructor
    · push_cast
      linarith
    · push_cast
      linarith
  · have hne : ¬ ((1 : ℝ) ≠ 1) := by simp
    have hx : ((255 : ℕ) : ℝ) / 255 * 255 * 2 = 510 := by norm_num
    simp only [build_lut, if_neg hne, hx]
    rw [if_neg (by norm_num : ¬ (510 : ℝ) < 0), if_pos (by norm_num : (255 : ℝ) < 510)]
    rw [pyInt, if_pos (by norm_num)]
    rw [Int.floor_eq_iff]
    constructor
    · push_cast
      linarith
    · push_cast
      linarith

/-- C2 witness: the LUT facts applied at concrete indices (the identity at
index 7, which requires the hypothesis `7 ≤ 255`). -/
theorem build_lut_witness : build_lut 1 1 7 = 7 ∧ build_lut 2 1 255 = 255 :=
  ⟨build_lut_matches_spec.2.1 7 (by norm_num), build_lut_matches_spec.2.2⟩

/-- Per-Group runtime state used by the reactive loop (`setup_runtime` /
`run_bridge`, ledfx_icue_core.py:2597-2632 and 3398-3473).  Times are
rationals; fields not relevant to the modelled steps (socket, debug
counters, keepalive timestamps) are omitted. -/
structure RGroup where
  protocol : String
  frame_buffer : List ℕ
  last_send : ℚ
  last_packet_ts : ℚ
  idle_cleared : Bool
  ddp_auto : Bool
  fail_count : ℕ
  idle_clear_disabled : Bool
  idle_clear_seconds : Option ℚ
deriving DecidableEq

/-- Decode phase of the packet handler (ledfx_icue_core.py:3423-3451): stamp
`last_packet_ts`, reset `idle_cleared`, dispatch on the protocol (with the
per-packet DDP test for the wled/auto family and the sticky `ddp_auto`
log-once flag), and decode into the frame buffer.  The returned Bool is
false when the handler `continue`s (DDP without push, or a raw payload whose
length is not a multiple of 3); `none` models an uncaught decoder exception. -/
def decodePacket (g : RGroup) (data : List ℕ) (now : ℚ) : Option (RGroup × Bool) :=
  let g0 : RGroup := { g with last_packet_ts := now, idle_cleared := false }
  let ddp_like := looks_like_ddp data
  if g0.protocol = "ddp" ∨ ((g0.protocol = "auto" ∨ g0.protocol = "wled") ∧ ddp_like) then
    let g1 : RGroup :=
      if g0.protocol = "wled" ∧ ddp_like ∧ g0.ddp_auto = false then
        { g0 with ddp_auto := true }
      else g0
    match parse_ddp data g1.frame_buffer with
    | none => none
    | some (push, fb) => some ({ g1 with frame_buffer := fb }, push)
  else if g0.protocol = "wled" then
    match parse_wled_or_raw data g0.frame_buffer with
    | none => none
    | some fb => some ({ g0 with frame_buffer := fb }, true)
  else if g0.protocol = "raw" then
    if data.length % 3 = 0 then
      let fb := pySliceAssign g0.frame_buffer 0 (min g0.frame_buffer.length data.length)
        (data.take g0.frame_buffer.length)
      some ({ g0 with frame_buffer := fb }, true)
    else some (g0, false)
  else
    match parse_wled_or_raw data g0.frame_buffer with
    | none => none
    | some fb => some ({ g0 with frame_buffer := fb }, true)

/-- Full packet handler (ledfx_icue_core.py:3423-3473): decode phase, then
the `min_interval` rate-limit check, then `apply_frame_map` with the
failure-counter / reconnect bookkeeping.  `applyRes` is the oracle outcome of
`apply_frame_map` (`none` models an exception inside the apply, which is
logged and triggers a reconnect attempt).  Result: the new group state,
whether `apply_frame_map` was invoked, and whether a reconnect was attempted. -/
def handlePacket (min_interval : ℚ) (apply_fail_threshold : ℕ) (applyRes : Option Bool)
    (g : RGroup) (data : List ℕ) (now : ℚ) : Option (RGroup × Bool × Bool) :=
  match decodePacket g data now with
  | none => none
  | some (g1, proceed) =>
    if proceed = false then some (g1, false, false)
    else if min_interval ≠ 0 ∧ now - g1.last_send < min_interval then some (g1, false, false)
    else
      let g2 : RGroup := { g1 with last_send := now }
      match applyRes with
      | some true => some ({ g2 with fail_count := 0 }, true, false)
      | some false =>
        if g2.fail_count + 1 ≥ apply_fail_threshold then
          some ({ g2 with fail_count := 0 }, true, true)
        else
          some ({ g2 with fail_count := g2.fail_count + 1 }, true, false)
      | none => some (g2, true, true)

/-- One idle-clear maintenance check for one group
(ledfx_icue_core.py:3308-3345).  `enabled` is `unique_idle_clear_enabled`,
`any_active_recent` the loop-wide recent-activity flag, `unique_idle_clear_s`
the global default idle delay; `applyRes` is the oracle outcome of the
`apply_frame_map` call (`none` models an exception, which is caught and
logged).  Returns the new group state and whether `apply_frame_map` was
invoked. -/
def idleClearStep (enabled any_active_recent : Bool) (unique_idle_clear_s : ℚ)
    (applyRes : Option Bool) (now : ℚ) (g : RGroup) : RGroup × Bool :=
  if enabled = false ∨ any_active_recent = false then (g, false)
  else if g.idle_clear_disabled then (g, false)
  else
    let clear_after := g.idle_clear_seconds.getD unique_idle_clear_s
    if g.last_packet_ts = 0 then (g, false)
    else if now - g.last_packet_ts < clear_after then (g, false)
    else if g.idle_cleared then (g, false)
    else
      let g1 : RGroup := { g with frame_buffer := List.replicate g.frame_buffer.length 0 }
      match applyRes with
      | some true => ({ g1 with last_send := now, fail_count := 0, idle_cleared := true }, true)
      | some false => (g1, true)
      | none => (g1, true)

/-- C3: on a Group configured with the "raw" protocol, a datagram whose length
is not a multiple of 3 is ignored: the frame buffer is byte-for-byte
unchanged, `apply_frame_map` is not invoked, and no reconnect is attempted
(only the packet timestamp and the idle-cleared flag are refreshed). -/
theorem raw_bad_length_packet_ignored
    (g : RGroup) (data : List ℕ) (now min_interval : ℚ) (thr : ℕ) (applyRes : Option Bool)
    (hp : g.protocol = "raw") (hlen : data.length % 3 ≠ 0) :
    handlePacket min_interval thr applyRes g data now =
      some ({ g with last_packet_ts := now, idle_cleared := false }, false, false) := by
  have hd : decodePacket g data now =
      some ({ g with last_packet_ts := now, idle_cleared := false }, false) := by
    simp [decodePacket, hp, hlen]
  unfold handlePacket
  rw [hd]
  simp

lemma decodePacket_preserves (g : RGroup) (data : List ℕ) (now : ℚ) (g1 : RGroup) (p : Bool)
    (h : decodePacket g data now = some (g1, p)) :
    g1.last_send = g.last_send ∧ g1.protocol = g.protocol ∧
      g1.idle_cleared = false ∧ g1.last_packet_ts = now := by
  obtain ⟨proto, fb, ls, lp, ic, da, fc, icd, ics⟩ := g
  unfold decodePacket at h
  by_cases h1 : proto = "ddp" ∨ (proto = "auto" ∨ proto = "wled") ∧ looks_like_ddp data = true
  · rw [if_pos h1] at h
    by_cases h2 : proto = "wled" ∧ looks_like_ddp data = true ∧ da = false
    · simp only [if_pos h2] at h
      rcases hpd : parse_ddp data fb with _ | ⟨push, fb2⟩ <;> rw [hpd] at h
      · simp at h
      · simp only [Option.some.injEq, Prod.mk.injEq] at h
        obtain ⟨hg, -⟩ := h
        subst hg
        simp_all
    · simp only [if_neg h2] at h
      rcases hpd : parse_ddp data fb with _ | ⟨push, fb2⟩ <;> rw [hpd] at h
      · simp at h
      · simp only [Option.some.injEq, Prod.mk.injEq] at h
        obtain ⟨hg, -⟩ := h
        subst hg
        simp_all
  · rw [if_neg h1] at h
    by_cases h3 : proto = "wled"
    · simp only [if_pos h3] at h
      rcases hpw : parse_wled_or_raw data fb with _ | fb2 <;> rw [hpw] at h
      · simp at h
      · simp only [Option.some.injEq, Prod.mk.injEq] at h
        obtain ⟨hg, -⟩ := h
        subst hg
        simp_all
    · simp only [if_neg h3] at h
      by_cases h4 : proto = "raw"
      · simp only [if_pos h4] at h
        by_cases h5 : data.length % 3 = 0
        · simp only [if_pos h5] at h
          simp only [Option.some.injEq, Prod.mk.injEq] at h
          obtain ⟨hg, -⟩ := h
          subst hg
          simp_all
        · simp only [if_neg h5] at h
          simp only [Option.some.injEq, Prod.mk.injEq] at h
          obtain ⟨hg, -⟩ := h
          subst hg
          simp_all
      · simp only [if_neg h4] at h
        rcases hpw : parse_wled_or_raw data fb with _ | fb2 <;> rw [hpw] at h
        · simp at h
        · simp only [Option.some.injEq, Prod.mk.injEq] at h
          obtain ⟨hg, -⟩ := h
          subst hg
          simp_all

/-- C4: a datagram arriving while the per-Group rate limit is active
(`0 < min_interval` and `now - last_send < min_interval`) is still decoded into
the Group's frame buffer — the handler's result state is exactly the decode
phase's state — but `apply_frame_map` is not invoked, no reconnect is
attempted, and nothing is queued: `last_send` is left unchanged, so the next
eligible packet will send the decoded bytes that stay resident in the buffer. -/
theorem rate_limited_packet_decoded_not_applied
    (g : RGroup) (data : List ℕ) (now min_interval : ℚ) (thr : ℕ) (applyRes : Option Bool)
    (g1 : RGroup) (proceed : Bool)
    (hmin : 0 < min_interval) (hrate : now - g.last_send < min_interval)
    (hdec : decodePacket g data now = some (g1, proceed)) :
    handlePacket min_interval thr applyRes g data now = some (g1, false, false) ∧
      g1.last_send = g.last_send := by
  have hpres := (decodePacket_preserves g data now g1 proceed hdec).1
  refine ⟨?_, hpres⟩
  unfold handlePacket
  rw [hdec]
  dsimp only
  by_cases hproc : proceed = false
  · simp [hproc]
  · rw [if_neg hproc, if_pos ⟨ne_of_gt hmin, by rw [hpres]; exact hrate⟩]

/-- Concrete raw-protocol group used by the C3 and C4 witnesses. -/
def gRaw : RGroup := ⟨"raw", [0, 0, 0], 10, 0, false, false, 0, false, none⟩

/-- Decoded state of `gRaw` after the C4 witness packet. -/
def gRawDecoded : RGroup := ⟨"raw", [1, 2, 3], 10, 11, false, false, 0, false, none⟩

/-- C3 witness: a 1-byte datagram on a raw group is dropped with the frame
buffer untouched and no apply or reconnect. -/
theorem raw_bad_length_witness :
    handlePacket 1 3 (some true) gRaw [7] 11 =
      some ({ gRaw with last_packet_ts := 11, idle_cleared := false }, false, false) :=
  raw_bad_length_packet_ignored gRaw [7] 11 1 3 (some true) rfl (by decide)

/-- C4 witness: a valid raw datagram arriving half a frame period after the
last send is decoded into the buffer but not applied. -/
theorem rate_limited_witness :
    handlePacket 2 3 (some true) gRaw [1, 2, 3] 11 = some (gRawDecoded, false, false) ∧
      gRawDecoded.last_send = gRaw.last_send :=
  rate_limited_packet_decoded_not_applied gRaw [1, 2, 3] 11 2 3 (some true)
    gRawDecoded true (by norm_num) (by norm_num [gRaw]) rfl

/-- C9 (amended): on a "wled" Group the protocol field is never reclassified
and DDP detection is per-packet, not sticky: a packet is decoded by the DDP
decoder iff it itself classifies as DDP (in which case the log-once `ddp_auto`
flag ends up set), and a packet that does not classify as DDP is decoded by
the wled decoder regardless of `ddp_auto`; the decoded group still reports
protocol "wled". -/
theorem wled_ddp_detection_per_packet
    (g : RGroup) (data : List ℕ) (now : ℚ) (hp : g.protocol = "wled") :
    (looks_like_ddp data = false →
      decodePacket g data now =
        (parse_wled_or_raw data g.frame_buffer).map
          (fun fb =>
            ({ g with last_packet_ts := now, idle_cleared := false, frame_buffer := fb },
              true))) ∧
    (looks_like_ddp data = true →
      decodePacket g data now =
        (parse_ddp data g.frame_buffer).map
          (fun pr =>
            ({ g with
                last_packet_ts := now
                idle_cleared := false
                ddp_auto := true
                frame_buffer := pr.2 },
              pr.1))) ∧
    (∀ (g1 : RGroup) (p : Bool),
      decodePacket g data now = some (g1, p) → g1.protocol = "wled") := by
  obtain ⟨proto, fb, ls, lp, ic, da, fc, icd, ics⟩ := g
  simp only [RGroup.protocol] at hp
  subst hp
  refine ⟨?_, ?_, ?_⟩
  · intro hddp
    unfold decodePacket
    rw [if_neg (by simp [hddp]), if_pos rfl]
    rcases hpw : parse_wled_or_raw data fb with _ | fb2 <;> simp [Option.map]
  · intro hddp
    unfold decodePacket
    rw [if_pos (Or.inr ⟨Or.inr rfl, hddp⟩)]
    by_cases hda : da = false
    · subst hda
      rcases hpd : parse_ddp data fb with _ | ⟨push, fb2⟩ <;> simp [Option.map, hddp, hpd]
    · have hda' : da = true := by cases da <;> simp_all
      subst hda'
      rcases hpd : parse_ddp data fb with _ | ⟨push, fb2⟩ <;> simp [Option.map, hddp, hpd]
  · intro g1 p h
    exact (decodePacket_preserves ⟨"wled", fb, ls, lp, ic, da, fc, icd, ics⟩
      data now g1 p h).2.1

/-- Concrete "wled" group used by the C9 counterexample and witness. -/
def gWled : RGroup := ⟨"wled", [0, 0, 0, 0, 0, 0], 0, 0, false, false, 0, false, none⟩

/-- A DDP datagram (version bits `01`, push set, declared length 0). -/
def pktDdp : List ℕ := [0x41, 0, 0, 0, 0, 0, 0, 0, 0, 0]

/-- A 3-byte raw RGB datagram, not classified as DDP. -/
def pktRaw : List ℕ := [10, 20, 30]

/-- State of `gWled` after handling `pktDdp` at time 1 (apply succeeded). -/
def gWledAfterDdp : RGroup := ⟨"wled", [0, 0, 0, 0, 0, 0], 1, 1, false, true, 0, false, none⟩

/-- State of `gWledAfterDdp` after handling `pktRaw` at time 2. -/
def gWledAfterRaw : RGroup := ⟨"wled", [10, 20, 30, 0, 0, 0], 2, 2, false, true, 0, false, none⟩

/-- C9: the claim as stated is false.  After `gWled` receives the
DDP-classified packet `pktDdp` (which sets the sticky `ddp_auto` flag), the
later packet `pktRaw` is decoded by the wled decoder — its bytes land at the
start of the buffer — whereas the DDP decoder applied to the same packet and
buffer would have left the buffer all zero; the protocol is re-tested per
packet rather than reclassified. -/
theorem wled_reclassification_not_sticky :
    handlePacket 0 3 (some true) gWled pktDdp 1 = some (gWledAfterDdp, true, false) ∧
    gWledAfterDdp.ddp_auto = true ∧
    handlePacket 0 3 (some true) gWledAfterDdp pktRaw 2 = some (gWledAfterRaw, true, false) ∧
    parse_wled_or_raw pktRaw gWledAfterDdp.frame_buffer = some gWledAfterRaw.frame_buffer ∧
    (parse_ddp pktRaw gWledAfterDdp.frame_buffer).map Prod.snd = some [0, 0, 0, 0, 0, 0] ∧
    gWledAfterRaw.frame_buffer ≠ [0, 0, 0, 0, 0, 0] :=
  ⟨rfl, rfl, rfl, rfl, rfl, by decide⟩

/-- C9 witness: the per-packet classification theorem applied to `gWled` and a
concrete non-DDP packet. -/
theorem wled_per_packet_witness :
    decodePacket gWled [2, 0, 9, 9, 9] 5 =
      (parse_wled_or_raw [2, 0, 9, 9, 9] gWled.frame_buffer).map
        (fun fb =>
          ({ gWled with last_packet_ts := 5, idle_cleared := false, frame_buffer := fb },
            true)) :=
  (wled_ddp_detection_per_packet gWled [2, 0, 9, 9, 9] 5 rfl).1 (by decide)

lemma idleClearStep_fires (g : RGroup) (now clearS : ℚ) (applyRes : Option Bool)
    (h1 : g.idle_clear_disabled = false) (h2 : g.last_packet_ts ≠ 0)
    (h3 : g.idle_clear_seconds.getD clearS ≤ now - g.last_packet_ts)
    (h4 : g.idle_cleared = false) :
    idleClearStep true true clearS applyRes now g =
      ((match applyRes with
        | some true =>
          { g with
              frame_buffer := List.replicate g.frame_buffer.length 0
              last_send := now
              fail_count := 0
              idle_cleared := true }
        | _ => { g with frame_buffer := List.replicate g.frame_buffer.length 0 }),
        true) := by
  unfold idleClearStep
  rw [if_neg (by simp), if_neg (by simp [h1]), if_neg h2, if_neg (not_lt.2 h3),
    if_neg (by simp [h4])]
  rcases applyRes with _ | b
  · rfl
  · cases b <;> rfl

/-- C8 (amended): when an idle-clear fires with a successful apply, the
Group's buffer is zeroed and the `idle_cleared` flag is set, so the clear is
not repeated on later iterations while the Group stays idle (a failed apply
leaves the flag unset, and the clear is retried); handling any packet resets
`idle_cleared`, so a later idle period triggers another clear. -/
theorem idle_clear_once_until_packet :
    (∀ (g : RGroup) (now clearS : ℚ),
      g.idle_clear_disabled = false → g.last_packet_ts ≠ 0 →
      g.idle_clear_seconds.getD clearS ≤ now - g.last_packet_ts → g.idle_cleared = false →
      idleClearStep true true clearS (some true) now g =
        ({ g with
            frame_buffer := List.replicate g.frame_buffer.length 0
            last_send := now
            fail_count := 0
            idle_cleared := true }, true)) ∧
    (∀ (enabled active : Bool) (clearS : ℚ) (applyRes : Option Bool) (now : ℚ) (g : RGroup),
      g.idle_cleared = true → idleClearStep enabled active clearS applyRes now g = (g, false)) ∧
    (∀ (min_interval : ℚ) (thr : ℕ) (applyRes : Option Bool) (g : RGroup) (data : List ℕ)
        (now : ℚ) (out : RGroup × Bool × Bool),
      handlePacket min_interval thr applyRes g data now = some out →
      out.1.idle_cleared = false) := by
  refine ⟨?_, ?_, ?_⟩
  · intro g now clearS h1 h2 h3 h4
    exact idleClearStep_fires g now clearS (some true) h1 h2 h3 h4
  · intro e a cs res now g hic
    unfold idleClearStep
    by_cases he : e = false ∨ a = false
    · rw [if_pos he]
    · rw [if_neg he]
      by_cases hd : g.idle_clear_disabled = true
      · rw [if_pos hd]
      · rw [if_neg hd]
        by_cases hlp : g.last_packet_ts = 0
        · rw [if_pos hlp]
        · rw [if_neg hlp]
          by_cases hlt : now - g.last_packet_ts < g.idle_clear_seconds.getD cs
          · rw [if_pos hlt]
          · rw [if_neg hlt, if_pos hic]
  · intro mi thr res g data now out h
    unfold handlePacket at h
    rcases hdec : decodePacket g data now with _ | ⟨g1, p⟩ <;> rw [hdec] at h
    · exact absurd h (by simp)
    · have hic := (decodePacket_preserves g data now g1 p hdec).2.2.1
      dsimp only at h
      by_cases hp : p = false
      · rw [if_pos hp] at h
        simp only [Option.some.injEq] at h
        subst h
        exact hic
      · rw [if_neg hp] at h
        by_cases hr : mi ≠ 0 ∧ now - g1.last_send < mi
        · rw [if_pos hr] at h
          simp only [Option.some.injEq] at h
          subst h
          exact hic
        · rw [if_neg hr] at h
          rcases res with _ | b
          · simp only [Option.some.injEq] at h
            subst h
            exact hic
          · cases b
            · by_cases hth : g1.fail_count + 1 ≥ thr
              · rw [if_pos hth] at h
                simp only [Option.some.injEq] at h
                subst h
                exact hic
              · rw [if_neg hth] at h
                simp only [Option.some.injEq] at h
                subst h
                exact hic
            · simp only [Option.some.injEq] at h
              subst h
              exact hic

/-- Concrete idle group used by the C8 counterexample and witness. -/
def gIdle : RGroup := ⟨"raw", [1, 2, 3], 0, 1, false, false, 0, false, none⟩

/-- C8: the claim as stated is false: with `idle_clear_seconds = 2` and an
apply that reports failure, the idle-clear at time 10 invokes
`apply_frame_map`, and — with no packet received in between (the packet
timestamp is unchanged) — the very next maintenance iteration at time 11
invokes it again, so it is not invoked exactly once while the Group stays
idle. -/
theorem idle_clear_reinvoked_on_failed_apply :
    (idleClearStep true true 2 (some false) 10 gIdle).2 = true ∧
    (idleClearStep true true 2 (some false) 11
      (idleClearStep true true 2 (some false) 10 gIdle).1).2 = true ∧
    (idleClearStep true true 2 (some false) 10 gIdle).1.last_packet_ts =
      gIdle.last_packet_ts := by
  have h1 := idleClearStep_fires gIdle 10 2 (some false) rfl
    (by norm_num [gIdle]) (by norm_num [gIdle]) rfl
  have h2 := idleClearStep_fires { gIdle with frame_buffer := [0, 0, 0] } 11 2 (some false)
    rfl (by norm_num [gIdle]) (by norm_num [gIdle]) rfl
  refine ⟨?_, ?_, ?_⟩
  · rw [h1]
  · rw [h1]
    have he : (match (some false : Option Bool) with
        | some true =>
          { gIdle with
              frame_buffer := List.replicate gIdle.frame_buffer.length 0
              last_send := (10 : ℚ)
              fail_count := 0
              idle_cleared := true }
        | _ => { gIdle with frame_buffer := List.replicate gIdle.frame_buffer.length 0 }) =
        { gIdle with frame_buffer := [0, 0, 0] } := rfl
    rw [he, h2]
  · rw [h1]

/-- C8 witness: the amended idle-clear behaviour at a concrete group: a
successful clear at time 10 marks the group cleared, the next iteration does
not clear again, and a packet resets the flag. -/
theorem idle_clear_once_witness :
    idleClearStep true true 2 (some true) 10 gIdle =
      ({ gIdle with
          frame_buffer := [0, 0, 0]
          last_send := 10
          fail_count := 0
          idle_cleared := true }, true) ∧
    idleClearStep true true 2 (some true) 11
      { gIdle with
          frame_buffer := [0, 0, 0]
          last_send := 10
          fail_count := 0
          idle_cleared := true } =
      ({ gIdle with
          frame_buffer := [0, 0, 0]
          last_send := 10
          fail_count := 0
          idle_cleared := true }, false) :=
  ⟨idle_clear_once_until_packet.1 gIdle 10 2 rfl (by norm_num [gIdle])
      (by norm_num [gIdle]) rfl,
   idle_clear_once_until_packet.2.1 true true 2 (some true) 11
      { gIdle with
          frame_buffer := [0, 0, 0]
          last_send := 10
          fail_count := 0
          idle_cleared := true } rfl⟩

/-- Python `str.lower()` for the ASCII mode/direction strings of the config
surface, written over the character list so that it evaluates in the kernel. -/
def pyLower (s : String) : String := String.mk (s.data.map Char.toLower)

/-- One SDK color slot (`CorsairLedColor`): LED id plus RGBA channels. -/
structure Color where
  id : ℕ
  r : ℕ
  g : ℕ
  b : ℕ
  a : ℕ
deriving DecidableEq

/-- Python list/bytearray read `l[i]` with an integer index: negative indices
wrap from the end, out-of-range raises. -/
def pyIdx {α : Type} (l : List α) (i : ℤ) : Option α :=
  let j := if i < 0 then i + l.length else i
  if 0 ≤ j ∧ j.toNat < l.length then l.get? j.toNat else none

/-- Python list element assignment `l[i] = v` with an integer index: negative
indices wrap from the end, out-of-range raises. -/
def pyIdxSet {α : Type} (l : List α) (i : ℤ) (v : α) : Option (List α) :=
  let j := if i < 0 then i + l.length else i
  if 0 ≤ j ∧ j.toNat < l.length then some (l.set j.toNat v) else none

/-- Python `int(x)` on a rational: truncation toward zero. -/
def pyIntQ (x : ℚ) : ℤ := if 0 ≤ x then ⌊x⌋ else ⌈x⌉

/-- Insertion-ordered dictionary lookup (`dict.get`). -/
def dictGet {α : Type} (d : List (ℕ × α)) (k : ℕ) : Option α :=
  (d.find? (fun kv => kv.1 == k)).map Prod.snd

/-- Insertion-ordered dictionary update: an existing key keeps its position,
a new key is appended (CPython dict semantics). -/
def dictSet {α : Type} (d : List (ℕ × α)) (k : ℕ) (v : α) : List (ℕ × α) :=
  if d.any (fun kv => kv.1 == k) then
    d.map (fun kv => if kv.1 == k then (k, v) else kv)
  else d ++ [(k, v)]

/-- A Map Entry (the 2/3/4-tuple shapes of the Python `map` lists): device id,
one or several target LED indices, optional source pixel override, optional
white-balance triple. -/
structure MapEntry where
  device : ℕ
  led_idx : ℤ ⊕ List ℤ
  src_index : Option ℤ := none
  wb : Option (ℚ × ℚ × ℚ) := none
deriving DecidableEq

/-- The LedMapper state relevant to `get_device_order` / `apply_frame_map`:
the per-device color buffers and computed orders, the `mutable_colors` flag,
and whether the SDK backend rejects in-place attribute assignment on its
color objects (the environment condition that makes `color.r = r` raise). -/
structure MapperState where
  led_colors_by_device : List (ℕ × List Color)
  order_by_device : List (ℕ × List ℕ)
  mutable_colors : Bool
  immutable_backend : Bool
deriving DecidableEq

/-- `LedMapper.get_device_order` (ledfx_icue_core.py:1513-1518): returns the
stored order when it is truthy and its length matches the device's color
count, else the identity order.  `order and len(order) == len(colors)` is the
Python truthiness test: `None` and the empty list both fail it. -/
def get_device_order (st : MapperState) (device_id : ℕ) : List ℕ :=
  let order := dictGet st.order_by_device device_id
  let colors := (dictGet st.led_colors_by_device device_id).getD []
  match order with
  | some o => if o ≠ [] ∧ o.length = colors.length then o else List.range colors.length
  | none => List.range colors.length

/-- White-balance application (ledfx_icue_core.py:1551-1554 and 1601-1604):
`int(max(0, min(255, channel * wb)))` per channel when a white-balance triple
is present. -/
def applyWb (wb : Option (ℚ × ℚ × ℚ)) (r g b : ℕ) : ℕ × ℕ × ℕ :=
  match wb with
  | none => (r, g, b)
  | some (wr, wg, wbl) =>
      ((pyIntQ (max 0 (min 255 ((r : ℚ) * wr)))).toNat,
       (pyIntQ (max 0 (min 255 ((g : ℚ) * wg)))).toNat,
       (pyIntQ (max 0 (min 255 ((b : ℚ) * wbl)))).toNat)

/-- Source-offset resolution for a map entry (ledfx_icue_core.py:1540-1544):
sequential consumption of the frame buffer, or `int(src_index) * 3`. -/
def entryOffset (e : MapEntry) (idx : ℕ) : ℤ × ℕ :=
  match e.src_index with
  | none => ((idx : ℤ), idx + 3)
  | some s => (s * 3, idx)

/-- Per-entry RGB extraction (ledfx_icue_core.py:1545-1554): zero when the
triplet does not fit the frame, else LUT lookup of the three frame bytes,
then white balance.  The frame and LUT reads are not inside any `try`, so a
failed read propagates (`none`). -/
def entryRGB (lut frame_bytes : List ℕ) (e : MapEntry) (offset : ℤ) : Option (ℕ × ℕ × ℕ) :=
  if (frame_bytes.length : ℤ) ≤ offset + 2 then some (applyWb e.wb 0 0 0)
  else do
    let fr ← pyIdx frame_bytes offset
    let fg ← pyIdx frame_bytes (offset + 1)
    let fbl ← pyIdx frame_bytes (offset + 2)
    let r ← pyIdx lut (fr : ℤ)
    let g ← pyIdx lut (fg : ℤ)
    let b ← pyIdx lut (fbl : ℤ)
    return applyWb e.wb r g b

/-- In-place color mutation `color.r = r; color.g = g; color.b = b;
color.a = 255` (ledfx_icue_core.py:1558-1570): fails when the index is out of
range (the `colors[li]` lookup raises) or the backend's color objects are
immutable (the first attribute assignment raises). -/
def setColorRGB (imm : Bool) (colors : List Color) (li : ℤ) (r g b : ℕ) :
    Option (List Color) :=
  let j := if li < 0 then li + colors.length else li
  if 0 ≤ j ∧ j.toNat < colors.length then
    if imm then none
    else
      match colors.get? j.toNat with
      | some c => some (colors.set j.toNat { c with r := r, g := g, b := b, a := 255 })
      | none => none
  else none

/-- Fan-out mutation over a list target (ledfx_icue_core.py:1556-1563):
sequential, keeping the mutations already made when a later one raises. -/
def mutateTargets (imm : Bool) (colors : List Color) (lis : List ℤ) (r g b : ℕ) :
    List Color × Bool :=
  match lis with
  | [] => (colors, true)
  | li :: rest =>
    match setColorRGB imm colors li r g b with
    | some c2 => mutateTargets imm c2 rest r g b
    | none => (colors, false)

/-- Mutable-colors pass of `apply_frame_map` (ledfx_icue_core.py:1529-1573):
fold over the map entries updating the per-device color lists in place; any
exception in the `try` block (missing device, bad index, immutable backend)
sets `mutable_colors = False` and breaks out of the loop; a failed LUT/frame
read (outside the `try`) aborts the whole call (`none`).  Returns the updated
dictionary and the final `mutable_colors` flag. -/
def phaseAMut (imm : Bool) (lut frame_bytes : List ℕ) :
    List MapEntry → List (ℕ × List Color) → ℕ → Option (List (ℕ × List Color) × Bool)
  | [], d, _ => some (d, true)
  | e :: rest, d, idx =>
    let off := entryOffset e idx
    match entryRGB lut frame_bytes e off.1 with
    | none => none
    | some (r, g, b) =>
      match dictGet d e.device with
      | none => some (d, false)
      | some colors =>
        match e.led_idx with
        | Sum.inl li =>
          match setColorRGB imm colors li r g b with
          | some c2 => phaseAMut imm lut frame_bytes rest (dictSet d e.device c2) off.2
          | none => some (d, false)
        | Sum.inr lis =>
          let m := mutateTargets imm colors lis r g b
          if m.2 then phaseAMut imm lut frame_bytes rest (dictSet d e.device m.1) off.2
          else some (dictSet d e.device m.1, false)

/-- `LedMapper._make_color` (ledfx_icue_core.py:1487-1497): a fresh color
object with alpha 255. -/
def make_color (led_id r g b : ℕ) : Color := ⟨led_id, r, g, b, 255⟩

/-- One entry's writes into the rebuilt map (ledfx_icue_core.py:1605-1611):
`colors[li].id` and `rebuilt_map[device_id][li] = ...` are unguarded, so a
missing device or bad index raises (`none`). -/
def phaseBTargets (device : ℕ) (colors : List Color) (targets : List ℤ) (r g b : ℕ)
    (rebuilt : List (ℕ × List (Option Color))) : Option (List (ℕ × List (Option Color))) :=
  match targets with
  | [] => some rebuilt
  | li :: rest =>
    match pyIdx colors li with
    | none => none
    | some c =>
      match dictGet rebuilt device with
      | none => none
      | some rl =>
        match pyIdxSet rl li (some (make_color c.id r g b)) with
        | none => none
        | some rl2 => phaseBTargets device colors rest r g b (dictSet rebuilt device rl2)

/-- Rebuild pass entry loop of `apply_frame_map` (ledfx_icue_core.py:1580-1611). -/
def phaseBLoop (lut frame_bytes : List ℕ) :
    List MapEntry → List (ℕ × List Color) → List (ℕ × List (Option Color)) → ℕ →
    Option (List (ℕ × List (Option Color)))
  | [], _, rebuilt, _ => some rebuilt
  | e :: rest, d, rebuilt, idx =>
    let off := entryOffset e idx
    match entryRGB lut frame_bytes e off.1 with
    | none => none
    | some (r, g, b) =>
      match dictGet d e.device with
      | none => none
      | some colors =>
        let targets := match e.led_idx with
          | Sum.inl li => [li]
          | Sum.inr lis => lis
        match phaseBTargets e.device colors targets r g b rebuilt with
        | none => none
        | some rebuilt2 => phaseBLoop lut frame_bytes rest d rebuilt2 off.2

/-- Merge pass of the rebuild path (ledfx_icue_core.py:1612-1620): fill the
slots never written from the existing colors and store nonempty lists back.
A slot that stays `None` (impossible here, since rebuilt lists share their
device's current length) is modelled as a failure instead of Python's
deferred type error. -/
def phaseBMerge : List (ℕ × List (Option Color)) → List (ℕ × List Color) →
    Option (List (ℕ × List Color))
  | [], d => some d
  | (dev, rl) :: rest, d =>
    if rl = [] then phaseBMerge rest d
    else
      let existing := (dictGet d dev).getD []
      let filled := rl.enum.map (fun p => p.2 <|> existing.get? p.1)
      match filled.mapM id with
      | none => none
      | some cs => phaseBMerge rest (dictSet d dev cs)

/-- Direct-mode device write loop (ledfx_icue_core.py:1623-1632): skip devices
with no colors, accumulate `any_ok` from the direct-write oracle. -/
def directLoop (directOk : ℕ → Bool) (d : List (ℕ × List Color)) :
    List ℕ → Bool → Bool
  | [], any_ok => any_ok
  | dev :: rest, any_ok =>
    match dictGet d dev with
    | none => directLoop directOk d rest any_ok
    | some [] => directLoop directOk d rest any_ok
    | some (_ :: _) => directLoop directOk d rest (any_ok || directOk dev)

/-- Buffered-mode write loop (ledfx_icue_core.py:1634-1649): buffered write
first, direct write as fallback; tracks whether any buffered write succeeded
(for the flush). -/
def bufferLoop (directOk bufferOk : ℕ → Bool) (d : List (ℕ × List Color)) :
    List ℕ → Bool → Bool → Bool × Bool
  | [], any_ok, used => (any_ok, used)
  | dev :: rest, any_ok, used =>
    match dictGet d dev with
    | none => bufferLoop directOk bufferOk d rest any_ok used
    | some [] => bufferLoop directOk bufferOk d rest any_ok used
    | some (_ :: _) =>
      if bufferOk dev then bufferLoop directOk bufferOk d rest true true
      else bufferLoop directOk bufferOk d rest (any_ok || directOk dev) used

/-- Auto-mode write loop (ledfx_icue_core.py:1663-1678): direct write first,
buffered write as fallback. -/
def autoLoop (directOk bufferOk : ℕ → Bool) (d : List (ℕ × List Color)) :
    List ℕ → Bool → Bool → Bool × Bool
  | [], any_ok, used => (any_ok, used)
  | dev :: rest, any_ok, used =>
    match dictGet d dev with
    | none => autoLoop directOk bufferOk d rest any_ok used
    | some [] => autoLoop directOk bufferOk d rest any_ok used
    | some (_ :: _) =>
      if directOk dev then autoLoop directOk bufferOk d rest true used
      else if bufferOk dev then autoLoop directOk bufferOk d rest true true
      else autoLoop directOk bufferOk d rest any_ok used

/-- Hardware write dispatch of `apply_frame_map` (ledfx_icue_core.py:1622-1681):
mode normalization `(update_mode or "auto").lower()`, then the direct /
buffered / buffer-safe / auto device loops.  Returns `any_ok`. -/
def writePhase (directOk bufferOk : ℕ → Bool) (d2 : List (ℕ × List Color))
    (device_ids : List ℕ) (update_mode : String) : Bool :=
  let mode := pyLower (if update_mode = "" then "auto" else update_mode)
  if mode = "direct" then
    directLoop directOk d2 device_ids false
  else if mode = "buffer" ∨ mode = "buffer_safe" then
    let bl := bufferLoop directOk bufferOk d2 device_ids false false
    if mode = "buffer_safe" then directLoop directOk d2 device_ids bl.1
    else bl.1
  else
    (autoLoop directOk bufferOk d2 device_ids false false).1

/-- `LedMapper.apply_frame_map` (ledfx_icue_core.py:1520-1681).  `directOk` /
`bufferOk` are the per-device outcomes of `_try_set_direct` /
`_try_set_buffer` (which catch their own exceptions); the SDK `flush` has no
modelled effect.  Returns `any_ok` and the updated mapper state, or `none`
when an unguarded lookup raises. -/
def apply_frame_map (directOk bufferOk : ℕ → Bool) (st : MapperState)
    (map_list : List MapEntry) (device_ids : List ℕ) (frame_bytes : List ℕ)
    (lutOpt : Option (List ℕ)) (update_mode : String) : Option (Bool × MapperState) :=
  if map_list = [] then some (false, st)
  else
    let lut := lutOpt.getD (List.range 256)
    let pa : Option (List (ℕ × List Color) × Bool) :=
      if st.mutable_colors then
        phaseAMut st.immutable_backend lut frame_bytes map_list st.led_colors_by_device 0
      else some (st.led_colors_by_device, false)
    match pa with
    | none => none
    | some (d1, mut1) =>
      let db : Option (List (ℕ × List Color)) :=
        if mut1 then some d1
        else
          let rebuilt0 := device_ids.foldl
            (fun m dev => dictSet m dev
              (List.replicate ((dictGet d1 dev).getD []).length (none : Option Color))) []
          match phaseBLoop lut frame_bytes map_list d1 rebuilt0 0 with
          | none => none
          | some rebuilt => phaseBMerge rebuilt d1
      match db with
      | none => none
      | some d2 =>
        some (writePhase directOk bufferOk d2 device_ids update_mode,
          { st with led_colors_by_device := d2, mutable_colors := mut1 })

/-- C5: `get_device_order` always returns a sequence whose length equals the
device's LED (color) count; a stored order is returned exactly when its length
matches that count, and otherwise — including when no order is stored — the
identity order `[0, 1, ..., n-1]` is returned. -/
theorem get_device_order_spec :
    (∀ (st : MapperState) (d : ℕ),
      (get_device_order st d).length =
        ((dictGet st.led_colors_by_device d).getD []).length) ∧
    (∀ (st : MapperState) (d : ℕ) (o : List ℕ),
      dictGet st.order_by_device d = some o →
      o.length = ((dictGet st.led_colors_by_device d).getD []).length →
      get_device_order st d = o) ∧
    (∀ (st : MapperState) (d : ℕ) (o : List ℕ),
      dictGet st.order_by_device d = some o →
      o.length ≠ ((dictGet st.led_colors_by_device d).getD []).length →
      get_device_order st d =
        List.range ((dictGet st.led_colors_by_device d).getD []).length) ∧
    (∀ (st : MapperState) (d : ℕ),
      dictGet st.order_by_device d = none →
      get_device_order st d =
        List.range ((dictGet st.led_colors_by_device d).getD []).length) := by
  refine ⟨?_, ?_, ?_, ?_⟩
  · intro st d
    unfold get_device_order
    dsimp only
    rcases h : dictGet st.order_by_device d with _ | o
    · simp
    · dsimp only
      split_ifs with hc
      · exact hc.2
      · simp
  · intro st d o ho hlen
    unfold get_device_order
    rw [ho]
    dsimp only
    by_cases hne : o = []
    · subst hne
      rw [if_neg (by simp), ← hlen]
      rfl
    · rw [if_pos ⟨hne, hlen⟩]
  · intro st d o ho hlen
    unfold get_device_order
    rw [ho]
    dsimp only
    rw [if_neg (by tauto)]
  · intro st d h
    unfold get_device_order
    rw [h]

/-- Concrete mapper state with a stored order matching its 2-LED device. -/
def mapperGood : MapperState :=
  ⟨[(0, [⟨0, 0, 0, 0, 255⟩, ⟨1, 0, 0, 0, 255⟩])], [(0, [1, 0])], true, false⟩

/-- Concrete mapper state with a stored order too short for its 2-LED device. -/
def mapperBad : MapperState :=
  ⟨[(0, [⟨0, 0, 0, 0, 255⟩, ⟨1, 0, 0, 0, 255⟩])], [(0, [1])], true, false⟩

/-- C5 witness: the order-length invariant at two concrete states: the
matching stored order is returned, the mismatching one is replaced by the
identity order. -/
theorem get_device_order_witness :
    get_device_order mapperGood 0 = [1, 0] ∧
    get_device_order mapperBad 0 = List.range 2 :=
  ⟨get_device_order_spec.2.1 mapperGood 0 [1, 0] (by decide) (by decide),
   get_device_order_spec.2.2.1 mapperBad 0 [1] (by decide) (by decide)⟩

/-- Whether a device has a nonempty color list (the Python truthiness test
`if not colors: continue` in the write loops). -/
def devHasColors (d : List (ℕ × List Color)) (dev : ℕ) : Bool :=
  match dictGet d dev with
  | some (_ :: _) => true
  | _ => false

lemma directLoop_eq (directOk : ℕ → Bool) (d : List (ℕ × List Color)) :
    ∀ (l : List ℕ) (acc : Bool),
      directLoop directOk d l acc =
        (acc || l.any (fun dev => devHasColors d dev && directOk dev)) := by
  intro l
  induction l with
  | nil => intro acc; simp [directLoop]
  | cons dev rest ih =>
    intro acc
    rcases h : dictGet d dev with _ | cs
    · simp [directLoop, h, ih, devHasColors, List.any_cons]
    · rcases cs with _ | ⟨c, cs⟩
      · simp [directLoop, h, ih, devHasColors, List.any_cons]
      · simp [directLoop, h, ih, devHasColors, List.any_cons, Bool.or_assoc]

lemma bufferLoop_fst (directOk bufferOk : ℕ → Bool) (d : List (ℕ × List Color)) :
    ∀ (l : List ℕ) (acc used : Bool),
      (bufferLoop directOk bufferOk d l acc used).1 =
        (acc || l.any (fun dev => devHasColors d dev && (directOk dev || bufferOk dev))) := by
  intro l
  induction l with
  | nil => intro acc used; simp [bufferLoop]
  | cons dev rest ih =>
    intro acc used
    rcases h : dictGet d dev with _ | cs
    · simp [bufferLoop, h, ih, devHasColors, List.any_cons]
    · rcases cs with _ | ⟨c, cs⟩
      · simp [bufferLoop, h, ih, devHasColors, List.any_cons]
      · cases hb : bufferOk dev <;>
          simp [bufferLoop, h, hb, ih, devHasColors, List.any_cons, Bool.or_assoc]

lemma autoLoop_fst (directOk bufferOk : ℕ → Bool) (d : List (ℕ × List Color)) :
    ∀ (l : List ℕ) (acc used : Bool),
      (autoLoop directOk bufferOk d l acc used).1 =
        (acc || l.any (fun dev => devHasColors d dev && (directOk dev || bufferOk dev))) := by
  intro l
  induction l with
  | nil => intro acc used; simp [autoLoop]
  | cons dev rest ih =>
    intro acc used
    rcases h : dictGet d dev with _ | cs
    · simp [autoLoop, h, ih, devHasColors, List.any_cons]
    · rcases cs with _ | ⟨c, cs⟩
      · simp [autoLoop, h, ih, devHasColors, List.any_cons]
      · cases hd : directOk dev
        · cases hb : bufferOk dev <;>
            simp [autoLoop, h, hd, hb, ih, devHasColors, List.any_cons, Bool.or_assoc]
        · simp [autoLoop, h, hd, ih, devHasColors, List.any_cons, Bool.or_assoc]

lemma any_and_or_absorb (l : List ℕ) (h f g : ℕ → Bool) :
    (l.any (fun x => h x && (f x || g x)) || l.any (fun x => h x && f x)) =
      l.any (fun x => h x && (f x || g x)) := by
  cases hA : l.any (fun x => h x && f x)
  · simp
  · obtain ⟨x, hm, hx⟩ := List.any_eq_true.mp hA
    have hB : l.any (fun x => h x && (f x || g x)) = true :=
      List.any_eq_true.mpr ⟨x, hm, by simp_all⟩
    simp [hB]

/-- The mode-dependent per-device write success condition: in "direct" mode
only the direct write counts; in the buffered and auto modes a device write
succeeds when the direct or the buffered call reports success. -/
def modeWriteOk (directOk bufferOk : ℕ → Bool) (update_mode : String) (dev : ℕ) : Bool :=
  if pyLower (if update_mode = "" then "auto" else update_mode) = "direct" then directOk dev
  else directOk dev || bufferOk dev

lemma writePhase_eq (directOk bufferOk : ℕ → Bool) (d2 : List (ℕ × List Color))
    (ids : List ℕ) (mode : String) :
    writePhase directOk bufferOk d2 ids mode =
      ids.any (fun dev =>
        devHasColors d2 dev && modeWriteOk directOk bufferOk mode dev) := by
  unfold writePhase modeWriteOk
  dsimp only
  set m := pyLower (if mode = "" then "auto" else mode) with hm
  by_cases h1 : m = "direct"
  · rw [if_pos h1, directLoop_eq]
    simp [h1]
  · rw [if_neg h1]
    by_cases h2 : m = "buffer" ∨ m = "buffer_safe"
    · rw [if_pos h2]
      by_cases h3 : m = "buffer_safe"
      · rw [if_pos h3, directLoop_eq, bufferLoop_fst]
        simp only [Bool.false_or]
        rw [any_and_or_absorb ids (fun dev => devHasColors d2 dev) directOk bufferOk]
        simp [h1]
      · rw [if_neg h3, bufferLoop_fst]
        simp [h1]
    · rw [if_neg h2, autoLoop_fst]
      simp [h1]

/-- C6: a completed `apply_frame_map` call returns `true` iff the map entry
list is nonempty and at least one device write — direct or buffered according
to the selected update mode — reported success (devices with no colors are
skipped); in particular it returns `false` for an empty map entry list and
when every attempted write fails. -/
theorem apply_frame_map_true_iff
    (directOk bufferOk : ℕ → Bool) (st : MapperState) (map_list : List MapEntry)
    (device_ids : List ℕ) (frame_bytes : List ℕ) (lutOpt : Option (List ℕ))
    (update_mode : String) (res : Bool) (st' : MapperState)
    (h : apply_frame_map directOk bufferOk st map_list device_ids frame_bytes
      lutOpt update_mode = some (res, st')) :
    res = true ↔
      map_list ≠ [] ∧
      device_ids.any (fun dev =>
        devHasColors st'.led_colors_by_device dev &&
          modeWriteOk directOk bufferOk update_mode dev) = true := by
  unfold apply_frame_map at h
  by_cases hml : map_list = []
  · rw [if_pos hml] at h
    simp only [Option.some.injEq, Prod.mk.injEq] at h
    obtain ⟨hres, -⟩ := h
    subst hres
    simp [hml]
  · rw [if_neg hml] at h
    dsimp only at h
    split at h
    · exact absurd h (by simp)
    · split at h
      · exact absurd h (by simp)
      · simp only [Option.some.injEq, Prod.mk.injEq] at h
        obtain ⟨hres, hst⟩ := h
        subst hres
        subst hst
        rw [writePhase_eq]
        simp [hml]

/-- Concrete mapper state for the C6 witness: one device with one color. -/
def mapperW : MapperState := ⟨[(0, [⟨5, 0, 0, 0, 255⟩])], [], true, false⟩

/-- A plain 2-tuple map entry targeting LED 0 of device 0. -/
def entryW : MapEntry := ⟨0, Sum.inl 0, none, none⟩

/-- Mapper state after the C6 witness call wrote (9, 9, 9) into the color. -/
def mapperWafter : MapperState := ⟨[(0, [⟨5, 9, 9, 9, 255⟩])], [], true, false⟩

/-- C6 witness: the success characterization applied to a completed concrete
call (one entry, one device, direct write succeeding, auto mode). -/
theorem apply_frame_map_witness :
    ((true : Bool) = true ↔
      ([entryW] ≠ [] ∧
        [0].any (fun dev =>
          devHasColors mapperWafter.led_colors_by_device dev &&
            modeWriteOk (fun _ => true) (fun _ => false) "auto" dev) = true)) :=
  apply_frame_map_true_iff (fun _ => true) (fun _ => false) mapperW [entryW] [0]
    [9, 9, 9] (some (List.range 16)) "auto" true mapperWafter (by decide)

/-- A transformed LED point: original index with its (x, y) coordinates,
the tuples `(idx, fx, fy)` of `_compute_serpentine_order`. -/
abbrev Point := ℕ × ℚ × ℚ

/-- Python `abs` on a rational. -/
def pyAbsQ (x : ℚ) : ℚ := if x < 0 then -x else x

/-- Stable insertion with respect to a strict order: the new element goes
after every element it is not strictly smaller than, which is how Python's
stable `sort`/`sorted` place ties. -/
def stableInsert {α : Type} (lt : α → α → Prop) [DecidableRel lt] (a : α) :
    List α → List α
  | [] => [a]
  | b :: bs => if lt a b then a :: b :: bs else b :: stableInsert lt a bs

/-- Stable sort (insertion sort), matching Python `sorted` / `list.sort` for a
strict key order. -/
def stableSort {α : Type} (lt : α → α → Prop) [DecidableRel lt] (l : List α) : List α :=
  l.foldl (fun acc a => stableInsert lt a acc) []

/-- Lexicographic key `(p[2], p[1])` (sort by y, then x). -/
def ltKeyYX (p q : Point) : Prop := p.2.2 < q.2.2 ∨ (p.2.2 = q.2.2 ∧ p.2.1 < q.2.1)

instance : DecidableRel ltKeyYX := fun p q => by unfold ltKeyYX; infer_instance

/-- Lexicographic key `(-p[2], p[1])` (row_order "bottom"). -/
def ltKeyNegYX (p q : Point) : Prop := -p.2.2 < -q.2.2 ∨ (-p.2.2 = -q.2.2 ∧ p.2.1 < q.2.1)

instance : DecidableRel ltKeyNegYX := fun p q => by unfold ltKeyNegYX; infer_instance

/-- Key `p[1]` ascending (within-row sort). -/
def ltX (p q : Point) : Prop := p.2.1 < q.2.1

instance : DecidableRel ltX := fun p q => by unfold ltX; infer_instance

/-- Key `p[1]` descending (within-row sort with `reverse=True`). -/
def gtX (p q : Point) : Prop := q.2.1 < p.2.1

instance : DecidableRel gtX := fun p q => by unfold gtX; infer_instance

/-- Key `p[2]` ascending (row clustering fallback sort). -/
def ltY (p q : Point) : Prop := p.2.2 < q.2.2

instance : DecidableRel ltY := fun p q => by unfold ltY; infer_instance

/-- Key `t[0]` ascending over `(center, cluster)` pairs. -/
def ltFst (p q : ℚ × List Point) : Prop := p.1 < q.1

instance : DecidableRel ltFst := fun p q => by unfold ltFst; infer_instance

/-- Point construction of `_compute_serpentine_order`
(ledfx_icue_core.py:990-1000): a missing coordinate aborts (`None`), flips
negate, swap exchanges the axes. -/
def buildPoints (positions : List (Option ℚ × Option ℚ)) (flip_x flip_y swap_xy : Bool) :
    Option (List Point) :=
  positions.enum.mapM (fun p => do
    let x ← p.2.1
    let y ← p.2.2
    let fx := if flip_x then -x else x
    let fy := if flip_y then -y else y
    return if swap_xy then (p.1, fy, fx) else (p.1, fx, fy))

/-- First index of the nearest centroid, Python's
`min(range(rows_count), key=lambda j: abs(p[2] - centers[j]))`
(ledfx_icue_core.py:1390): strict improvement keeps the first minimum. -/
def argminCenter (y : ℚ) (centers : List ℚ) : ℕ :=
  (centers.enum.foldl
    (fun acc p => if pyAbsQ (y - p.2) < acc.2 then (p.1, pyAbsQ (y - p.2)) else acc)
    (0, pyAbsQ (y - centers.headD 0))).1

/-- Cluster assignment pass (ledfx_icue_core.py:1388-1391): cluster `j`
collects, in order, the points whose nearest centroid is `j`. -/
def assignClusters (points : List Point) (centers : List ℚ) (k : ℕ) : List (List Point) :=
  (List.range k).map (fun j => points.filter (fun p => argminCenter p.2.2 centers == j))

/-- Lloyd iterations of `_cluster_rows` (ledfx_icue_core.py:1387-1401), fuel
counting the remaining `range(20)` passes; returns the centers assigned just
before the `delta < 1e-3` break together with the clusters of the last pass.
The 0-fuel case is never reached from `cluster_rows`. -/
def lloydIter (points : List Point) (k : ℕ) : ℕ → List ℚ → List ℚ × List (List Point)
  | 0, centers => (centers, [])
  | fuel + 1, centers =>
    let clusters := assignClusters points centers k
    let new_centers := (clusters.zip centers).map
      (fun c => if c.1 = [] then c.2 else (c.1.map (fun p => p.2.2)).sum / (c.1.length : ℚ))
    let delta := ((new_centers.zip centers).map (fun p => pyAbsQ (p.1 - p.2))).foldl max 0
    if delta < 1 / 1000 then (new_centers, clusters)
    else
      match fuel with
      | 0 => (new_centers, clusters)
      | _ + 1 => lloydIter points k fuel new_centers

/-- `LedMapper._cluster_rows` (ledfx_icue_core.py:1374-1403): quantile-seeded
1-D k-means on the y coordinate; with at least as many requested rows as
distinct y values, one singleton row per point sorted by y.  The in-range
seed read `ys_sorted[idx]` is modelled with `getD`. -/
def cluster_rows (points : List Point) (rows_count : ℕ) : List (List Point) :=
  let ys := points.map (fun p => p.2.2)
  let ys_sorted := stableSort (· < ·) ys
  if ys_sorted = [] then []
  else if ys_sorted.length ≤ rows_count then
    (stableSort ltY points).map (fun p => [p])
  else
    let centers0 := (List.range rows_count).map (fun i =>
      let q : ℚ := if 1 < rows_count then (i : ℚ) / ((rows_count : ℚ) - 1) else 0
      let idx := (pyIntQ (q * (((ys_sorted.length - 1 : ℕ) : ℚ)))).toNat
      ys_sorted.getD idx 0)
    let r := lloydIter points rows_count 20 centers0
    (stableSort ltFst (r.1.zip r.2)).map Prod.snd

/-- Smallest positive gap between consecutive sorted y values
(ledfx_icue_core.py:1015-1019). -/
def minPosDiff (ys : List ℚ) : Option ℚ :=
  (ys.zip ys.tail).foldl
    (fun acc p =>
      let d := p.2 - p.1
      if 0 < d then
        match acc with
        | none => some d
        | some m => if d < m then some d else some m
      else acc) none

/-- Automatic row tolerance (ledfx_icue_core.py:1010-1020): half the smallest
positive gap between distinct sorted y values, 1.0 when there is at most one
distinct value or the gap is falsy. -/
def autoTol (points : List Point) : ℚ :=
  let ys := stableSort (· < ·) ((points.map (fun p => p.2.2)).dedup)
  if ys.length ≤ 1 then 1
  else
    match minPosDiff ys with
    | some d => if d = 0 then 1 else d / 2
    | none => 1

/-- Row tolerance selection (ledfx_icue_core.py:1011-1022). -/
def computeTol (points : List Point) (row_tolerance : Option ℚ) : ℚ :=
  match row_tolerance with
  | none => autoTol points
  | some t => if t ≤ 0 then autoTol points else t

/-- Row grouping sweep (ledfx_icue_core.py:1029-1043): a point joins the
current row when its y is within `tol` of the row's first y, else it starts a
new row. -/
def groupRowsGo (tol : ℚ) : List Point → List (List Point) → List Point → ℚ →
    List (List Point)
  | [], rows, current, _ => rows ++ [current]
  | p :: rest, rows, current, current_y =>
    if pyAbsQ (p.2.2 - current_y) ≤ tol then
      groupRowsGo tol rest rows (current ++ [p]) current_y
    else groupRowsGo tol rest (rows ++ [current]) [p] p.2.2

/-- Row grouping entry (the `current_y is None` first iteration). -/
def groupRows (pts : List Point) (tol : ℚ) : List (List Point) :=
  match pts with
  | [] => []
  | p :: rest => groupRowsGo tol rest [] [p] p.2.2

/-- Direction/emission pass (ledfx_icue_core.py:1045-1058): per row, sort by
x, reversed on alternating rows in "serpentine" mode (fixed in "linear"
mode), direction seeded by `first_dir`; emit the original indices. -/
def serpRows (rows : List (List Point)) (first_dir mode : String) : List ℕ :=
  (rows.enum.map (fun r =>
    let fd := pyLower (if first_dir = "" then "left" else first_dir)
    let md := pyLower (if mode = "" then "serpentine" else mode)
    let reverse : Bool :=
      if md = "linear" then decide (fd = "right")
      else if fd = "right" then decide (r.1 % 2 = 0) else decide (r.1 % 2 = 1)
    let row_sorted := if reverse then stableSort gtX r.2 else stableSort ltX r.2
    row_sorted.map (fun p => p.1))).flatten

/-- `LedMapper._compute_serpentine_order` (ledfx_icue_core.py:976-1058). -/
def compute_serpentine_order (positions : List (Option ℚ × Option ℚ))
    (row_tolerance : Option ℚ) (first_dir row_order : String) (rows_count : Option ℤ)
    (flip_x flip_y swap_xy : Bool) (mode : String) : Option (List ℕ) :=
  if positions = [] then none
  else
    match buildPoints positions flip_x flip_y swap_xy with
    | none => none
    | some points =>
      let rows0 : List (List Point) :=
        match rows_count with
        | some k => if 1 < k then cluster_rows points k.toNat else []
        | none => []
      let rows :=
        if rows0 = [] then
          let tol := computeTol points row_tolerance
          let sorted_pts :=
            if pyLower (if row_order = "" then "top" else row_order) = "bottom" then
              stableSort ltKeyNegYX points
            else stableSort ltKeyYX points
          groupRows sorted_pts tol
        else rows0
      some (serpRows rows first_dir mode)

/-- C7: for the four positions (0,0), (1,0), (0,1), (1,1) in that index
order, row tolerance 0.4, first_dir "left", row_order "top", no explicit row
count, no flips or swap, serpentine mode, the computed order is
[0, 1, 3, 2]: the row at lower y first, ascending by x, then the second row
descending by x. -/
theorem serpentine_four_points :
    compute_serpentine_order
      [(some 0, some 0), (some 1, some 0), (some 0, some 1), (some 1, some 1)]
      (some (2 / 5)) "left" "top" none false false false "serpentine" = some [0, 1, 3, 2] := by
  have hbp : buildPoints
      [(some 0, some 0), (some 1, some 0), (some 0, some 1), (some 1, some 1)]
      false false false =
      some [(0, 0, 0), (1, 1, 0), (2, 0, 1), (3, 1, 1)] := rfl
  have hl1 : pyLower "top" = "top" := rfl
  have hl2 : pyLower "left" = "left" := rfl
  have hl3 : pyLower "serpentine" = "serpentine" := rfl
  have hs1 : ("top" : String) ≠ "bottom" := by decide
  have hs2 : ("serpentine" : String) ≠ "linear" := by decide
  have hs3 : ("left" : String) ≠ "right" := by decide
  have hs4 : ("top" : String) ≠ "" := by decide
  have hs5 : ("left" : String) ≠ "" := by decide
  have hs6 : ("serpentine" : String) ≠ "" := by decide
  unfold compute_serpentine_order
  rw [if_neg (by simp), hbp]
  dsimp only
  norm_num [computeTol, groupRows, groupRowsGo, stableSort, stableInsert,
    ltKeyYX, ltX, gtX, serpRows, pyAbsQ, List.enum, List.enumFrom,
    hl1, hl2, hl3, hs1, hs2, hs3, hs4, hs5, hs6]
